import Mathlib

/-!
Shallow embedding of the unified memory system
(`src/unified_memory_system.py`) of the tdot_framework repository.

Modelling conventions:
* Python floats become `ℚ` (all constants in the source are decimal
  literals, so arithmetic is exact).
* Python dicts (`hot_memories`, `warm_memories`, the sqlite `memories`
  table) become association lists `List (Nat × UnifiedMemoryEntry)` in
  insertion order, which is the iteration order of Python dicts; the
  sqlite serialisation round-trip (`_persist_memory` / `_row_to_memory`)
  is modelled as the identity on entries.
* The md5-of-content-type-time id generation only matters through the
  freshness of the generated ids, so ids are `Nat` drawn from a counter
  `nextId`; the `""` sentinel returned by `store_memory` on
  deduplication becomes `none : Option Nat`.
* Python `set`s of ids become duplicate-free `List Nat` in insertion
  order (one fixed resolution of CPython's unspecified set iteration
  order).
* `time.time()` becomes an explicit `now : ℚ` argument.
* A storage I/O failure of the sqlite backend (the `except` branches of
  `_persist_memory`, `_get_memory_by_id`, `_perform_cleanup`) is
  modelled by a state flag `dbFails`; when set, database reads return
  nothing and database writes are dropped, exactly like the source's
  log-and-continue exception handlers.
* The `threading` locks, the `performance_metrics` statistics and the
  unused `metadata` field are not modelled; none of them feed back into
  the stored data.
-/

/-- Python `str.lower()`.  (`String.toLower` of the core library is
defined by well-founded recursion on positions and does not reduce in
the kernel; this character-map version is extensionally the same.) -/
def toLowerStr (s : String) : String := String.mk (s.data.map Char.toLower)

/-- `\w` of Python's `re` over the ASCII strings used here:
letters, digits and underscore. -/
def isWordChar (c : Char) : Bool := c.isAlphanum || c = '_'

/-- Helper for `findWords`: scan the characters, collecting the current
run of word characters in `cur` (reversed). -/
def findWordsAux : List Char → List Char → List String
  | [], [] => []
  | [], cur => [String.mk cur.reverse]
  | c :: rest, cur =>
    if isWordChar c then
      findWordsAux rest (c :: cur)
    else if cur.isEmpty then
      findWordsAux rest []
    else
      String.mk cur.reverse :: findWordsAux rest []

/-- `re.findall(r'\b\w+\b', s)`: the maximal runs of word characters. -/
def findWords (s : String) : List String := findWordsAux s.data []

/-- `str.split()` of Python: split on whitespace runs, dropping empty
pieces.  Helper carrying the current piece. -/
def splitWsAux : List Char → List Char → List String
  | [], [] => []
  | [], cur => [String.mk cur.reverse]
  | c :: rest, cur =>
    if c.isWhitespace then
      if cur.isEmpty then splitWsAux rest []
      else String.mk cur.reverse :: splitWsAux rest []
    else
      splitWsAux rest (c :: cur)

/-- Python `query_context.split()`. -/
def splitWs (s : String) : List String := splitWsAux s.data []

/-- `a.isPrefixOf`-style check on character lists (`[] ` is a prefix of
everything, matching Python's `"" in s` being `True`). -/
def isPrefixChars : List Char → List Char → Bool
  | [], _ => true
  | _ :: _, [] => false
  | a :: as, b :: bs => a = b && isPrefixChars as bs

/-- Python's substring test `pat in s` on character lists. -/
def containsSub (pat : List Char) : List Char → Bool
  | [] => isPrefixChars pat []
  | c :: cs => isPrefixChars pat (c :: cs) || containsSub pat cs

/-- Add an element to a duplicate-free list modelling a Python `set`
(no-op when already present, appended otherwise). -/
def addElem {α : Type} [DecidableEq α] (s : List α) (x : α) : List α :=
  if s.contains x then s else s ++ [x]

/-- `set.update` / union of Python sets, insertion order. -/
def sunion {α : Type} [DecidableEq α] (s t : List α) : List α :=
  t.foldl addElem s

/-- Intersection of Python sets, keeping the first operand's order. -/
def sinter {α : Type} [DecidableEq α] (s t : List α) : List α :=
  s.filter (fun x => t.contains x)

/-- `set(re.findall(r'\b\w+\b', str(content).lower()))`: the word set of
a content string. -/
def wordSet (s : String) : List String := (findWords (toLowerStr s)).dedup

/-- `MemoryType` enum of the source. -/
inductive MemoryType where
  | conversation
  | event
  | learning
  | knowledge
  | personality
  | relationship
  | preference
  | physical
  | emotional
  | goal
  | plot
  | system_state
deriving DecidableEq

/-- `StorageTier` enum of the source. -/
inductive StorageTier where
  | hot
  | warm
  | cold
deriving DecidableEq

/-- `UnifiedMemoryEntry` dataclass.  `content` is modelled as the
string the source stringifies it to. -/
structure UnifiedMemoryEntry where
  id : Nat
  content : String
  memory_type : MemoryType
  category : String
  importance : ℚ
  timestamp : ℚ
  context : String := ""
  tags : List String := []
  frequency_accessed : Nat := 0
  last_accessed : ℚ := 0
  emotional_weight : ℚ := 0
  plot_relevance : ℚ := 0
  relationship_relevance : ℚ := 0
  storage_tier : StorageTier := StorageTier.hot
  compression_level : Nat := 0
deriving DecidableEq

/-- `UnifiedMemoryEntry.update_access` (`time.time()` passed as `now`). -/
def UnifiedMemoryEntry.update_access (m : UnifiedMemoryEntry) (now : ℚ) :
    UnifiedMemoryEntry :=
  { m with frequency_accessed := m.frequency_accessed + 1, last_accessed := now }

/-- `UnifiedMemoryEntry.calculate_relevance_score`, line for line:
base score mutations followed by the `min(1.0, ...)` cap. -/
def UnifiedMemoryEntry.calculate_relevance_score (m : UnifiedMemoryEntry)
    (query_context : String) (now : ℚ) : ℚ :=
  let base0 := m.importance
  let age_hours := (now - m.timestamp) / 3600
  let base1 :=
    if age_hours < 24 then base0 + 0.2
    else if age_hours < 168 then base0 + 0.1
    else base0
  let base2 := if m.frequency_accessed > 5 then base1 + 0.1 else base1
  let base3 := base2 + m.emotional_weight * 0.3
  let base4 :=
    if query_context ≠ "" then
      let content_str := toLowerStr m.content
      let context_words := splitWs (toLowerStr query_context)
      let matchCount :=
        (context_words.filter (fun w => containsSub w.data content_str.data)).length
      if context_words ≠ [] then
        base3 + ((matchCount : ℚ) / (context_words.length : ℚ)) * 0.2
      else base3
    else base3
  min 1 base4

/-- The relevance formula exactly as the specification words it
(C5): one flat sum, capped at `1.0`. -/
def relevanceSpec (m : UnifiedMemoryEntry) (query_context : String) (now : ℚ) : ℚ :=
  let age_hours := (now - m.timestamp) / 3600
  let context_words := splitWs (toLowerStr query_context)
  let matched :=
    (context_words.filter (fun w => containsSub w.data (toLowerStr m.content).data)).length
  min 1 (m.importance
    + (if age_hours < 24 then 0.2 else if age_hours < 168 then 0.1 else 0)
    + (if m.frequency_accessed > 5 then 0.1 else 0)
    + m.emotional_weight * 0.3
    + (if query_context ≠ "" then
        ((matched : ℚ) / (context_words.length : ℚ)) * 0.2
      else 0))

/-- C5: for every entry, query context and current time,
`calculate_relevance_score` equals the specification's formula: the
importance, plus `0.2` for entries younger than 24 hours (else `0.1`
when younger than 7 days), plus `0.1` when the access count exceeds 5,
plus `emotionalWeight × 0.3`, plus — for a non-empty query context —
the fraction of query words occurring case-insensitively as substrings
of the stringified content, times `0.2`, the sum capped at `1.0`.
Both sides are pure functions of the entry, the query context and the
timestamp, so the result is deterministic for a fixed entry and time. -/
theorem calculate_relevance_matches_spec (m : UnifiedMemoryEntry)
    (query_context : String) (now : ℚ) :
    m.calculate_relevance_score query_context now = relevanceSpec m query_context now := by
  unfold UnifiedMemoryEntry.calculate_relevance_score relevanceSpec
  by_cases hq : query_context = ""
  · simp only [hq, ne_eq, not_true_eq_false, if_false, ite_false]
    split_ifs <;> ring_nf
  · simp only [ne_eq, hq, not_false_eq_true, if_true, ite_true]
    by_cases hw : splitWs (toLowerStr query_context) = []
    · simp only [hw, List.filter_nil, List.length_nil, Nat.cast_zero, List.not_mem_nil,
        CharP.cast_eq_zero, div_zero, zero_mul, ne_eq, not_true_eq_false, if_false]
      split_ifs <;> ring_nf
    · simp only [ne_eq, hw, not_false_eq_true, if_true]
      split_ifs <;> ring_nf

/-- `UnifiedMemoryIndex`: the `defaultdict(list)` maps become total
functions with default `[]`; the two ordered lists keep their
`(key, id)` pairs. -/
structure UnifiedMemoryIndex where
  type_index : MemoryType → List Nat
  category_index : String → List Nat
  tag_index : String → List Nat
  content_index : String → List Nat
  timestamp_index : List (ℚ × Nat)
  importance_index : List (ℚ × Nat)

/-- The index of a freshly constructed system. -/
def UnifiedMemoryIndex.empty : UnifiedMemoryIndex :=
  { type_index := fun _ => []
    category_index := fun _ => []
    tag_index := fun _ => []
    content_index := fun _ => []
    timestamp_index := []
    importance_index := [] }

/-- `list.sort(reverse=True)` on `(float, id)` pairs: stable descending
order by the full pair, Python tuple comparison. -/
def pairDesc (a b : ℚ × Nat) : Prop :=
  b.1 < a.1 ∨ (b.1 = a.1 ∧ b.2 ≤ a.2)

instance : DecidableRel pairDesc := fun a b => by
  unfold pairDesc; infer_instance

/-- `UnifiedMemoryIndex.add_entry`: append the id to every applicable
posting list (once per unique content word, once per tag occurrence)
and re-sort the two ordered lists descending. -/
def UnifiedMemoryIndex.add_entry (idx : UnifiedMemoryIndex) (memory_id : Nat)
    (e : UnifiedMemoryEntry) : UnifiedMemoryIndex :=
  { type_index := fun t =>
      if t = e.memory_type then idx.type_index t ++ [memory_id] else idx.type_index t
    category_index := fun c =>
      if c = e.category then idx.category_index c ++ [memory_id] else idx.category_index c
    tag_index := fun tg =>
      idx.tag_index tg ++ List.replicate (e.tags.count tg) memory_id
    content_index := fun w =>
      if (wordSet e.content).contains w then idx.content_index w ++ [memory_id]
      else idx.content_index w
    timestamp_index :=
      List.insertionSort pairDesc (idx.timestamp_index ++ [(e.timestamp, memory_id)])
    importance_index :=
      List.insertionSort pairDesc (idx.importance_index ++ [(e.importance, memory_id)]) }

/-- `UnifiedMemoryIndex.search`: the source accumulates a candidate set
through the supplied filters; at each stage a falsy (empty) accumulator
is replaced by the new filter's set, a truthy one is intersected with
it.  With no query and no filters at all, the most recent
`max_results` ids are taken from the timestamp index. -/
def UnifiedMemoryIndex.search (idx : UnifiedMemoryIndex) (query : String)
    (memory_types : List MemoryType) (categories : List String)
    (tags : List String) (max_results : Nat) : List Nat :=
  let c0 :=
    if query ≠ "" then
      (findWords (toLowerStr query)).foldl (fun acc w => sunion acc (idx.content_index w)) []
    else []
  let c1 :=
    if memory_types ≠ [] then
      let type_ids := memory_types.foldl (fun acc t => sunion acc (idx.type_index t)) []
      if c0 ≠ [] then sinter c0 type_ids else type_ids
    else c0
  let c2 :=
    if categories ≠ [] then
      let category_ids := categories.foldl (fun acc c => sunion acc (idx.category_index c)) []
      if c1 ≠ [] then sinter c1 category_ids else category_ids
    else c1
  let c3 :=
    if tags ≠ [] then
      let tag_ids := tags.foldl (fun acc t => sunion acc (idx.tag_index t)) []
      if c2 ≠ [] then sinter c2 tag_ids else tag_ids
    else c2
  let c4 :=
    if query = "" ∧ memory_types = [] ∧ categories = [] ∧ tags = [] then
      ((idx.timestamp_index.take max_results).map (fun p => p.2)).foldl addElem []
    else c3
  c4.take max_results

/-- The candidate set of each supplied filter, in the order the source
examines them (content words, kinds, categories, tags). -/
def UnifiedMemoryIndex.filterSets (idx : UnifiedMemoryIndex) (query : String)
    (memory_types : List MemoryType) (categories : List String)
    (tags : List String) : List (List Nat) :=
  (if query ≠ "" then
    [(findWords (toLowerStr query)).foldl (fun acc w => sunion acc (idx.content_index w)) []]
   else []) ++
  (if memory_types ≠ [] then
    [memory_types.foldl (fun acc t => sunion acc (idx.type_index t)) []]
   else []) ++
  (if categories ≠ [] then
    [categories.foldl (fun acc c => sunion acc (idx.category_index c)) []]
   else []) ++
  (if tags ≠ [] then
    [tags.foldl (fun acc t => sunion acc (idx.tag_index t)) []]
   else [])

/-- Search as claim C3 words it: the intersection of all NON-EMPTY
supplied filter sets (an empty filter set is dropped from the
intersection); with no filters at all, the most recent ids. -/
def UnifiedMemoryIndex.searchClaim (idx : UnifiedMemoryIndex) (query : String)
    (memory_types : List MemoryType) (categories : List String)
    (tags : List String) (max_results : Nat) : List Nat :=
  if query = "" ∧ memory_types = [] ∧ categories = [] ∧ tags = [] then
    (((idx.timestamp_index.take max_results).map (fun p => p.2)).foldl addElem []).take
      max_results
  else
    match (idx.filterSets query memory_types categories tags).filter
        (fun s => ¬ s.isEmpty) with
    | [] => []
    | s :: rest => (rest.foldl sinter s).take max_results

/-- Search as the code actually behaves (the amended C3): fold the
supplied filter sets in order, replacing an EMPTY ACCUMULATOR by the
current filter's set and intersecting otherwise — so it is a later
filter with an empty set that empties the result, while filters before
the first non-empty accumulator are dropped. -/
def UnifiedMemoryIndex.searchAmendedSpec (idx : UnifiedMemoryIndex) (query : String)
    (memory_types : List MemoryType) (categories : List String)
    (tags : List String) (max_results : Nat) : List Nat :=
  if query = "" ∧ memory_types = [] ∧ categories = [] ∧ tags = [] then
    (((idx.timestamp_index.take max_results).map (fun p => p.2)).foldl addElem []).take
      max_results
  else
    ((idx.filterSets query memory_types categories tags).foldl
      (fun acc s => if acc = [] then s else sinter acc s) []).take max_results

/-- C3 (amended): `search` computes one candidate set per supplied
filter and folds them in source order, replacing an empty accumulator
by the current set and intersecting otherwise; with no query and no
filters at all it returns the most recent `max_results` ids by
timestamp.  (So a supplied filter with an empty candidate set empties
the result whenever the accumulator before it was non-empty; only
filters before the first non-empty accumulator are dropped.) -/
theorem search_eq_searchAmendedSpec (idx : UnifiedMemoryIndex) (query : String)
    (memory_types : List MemoryType) (categories : List String)
    (tags : List String) (max_results : Nat) :
    idx.search query memory_types categories tags max_results =
      idx.searchAmendedSpec query memory_types categories tags max_results := by
  unfold UnifiedMemoryIndex.search UnifiedMemoryIndex.searchAmendedSpec
    UnifiedMemoryIndex.filterSets
  by_cases hq : query = "" <;>
    by_cases hm : memory_types = [] <;>
      by_cases hc : categories = [] <;>
        by_cases ht : tags = [] <;>
          simp only [hq, hm, hc, ht, ne_eq, not_true_eq_false, not_false_eq_true,
            if_true, if_false, ite_true, ite_false, true_and, false_and, and_true,
            and_false, List.nil_append, List.append_nil, List.cons_append,
            List.foldl_cons, List.foldl_nil, List.singleton_append] <;>
          split_ifs <;> simp_all

/-- A concrete indexed entry: content "hello", kind conversation,
category "a". -/
def helloEntry : UnifiedMemoryEntry :=
  { id := 0, content := "hello", memory_type := MemoryType.conversation,
    category := "a", importance := 1/2, timestamp := 0 }

/-- An index holding exactly `helloEntry` under id 0. -/
def helloIndex : UnifiedMemoryIndex :=
  UnifiedMemoryIndex.empty.add_entry 0 helloEntry

/-- C3 (counterexample): on an index holding one conversation entry
with content "hello", a search for query "hello" restricted to kind
`event` returns `[]` — the supplied kinds filter has an empty candidate
set, and instead of being dropped from the intersection (which would
give `[0]`, as `searchClaim` computes), it empties the result. -/
theorem search_counterexample :
    helloIndex.search "hello" [MemoryType.event] [] [] 50 = [] ∧
    helloIndex.searchClaim "hello" [MemoryType.event] [] [] 50 = [0] := by
  constructor <;> with_unfolding_all decide

/-- `UnifiedMemorySystem` state: the two in-memory tier dicts, the
sqlite table, the index, the counters, and the failure flag for the
durable backend. -/
structure UnifiedMemorySystem where
  hot_memories : List (Nat × UnifiedMemoryEntry)
  warm_memories : List (Nat × UnifiedMemoryEntry)
  db : List (Nat × UnifiedMemoryEntry)
  index : UnifiedMemoryIndex
  max_hot_memories : Nat
  max_warm_memories : Nat
  cleanup_interval : Nat
  operation_count : Nat
  nextId : Nat
  dbFails : Bool

/-- A freshly constructed system with the constructor's default
parameters and an empty database. -/
def UnifiedMemorySystem.init : UnifiedMemorySystem :=
  { hot_memories := [], warm_memories := [], db := [],
    index := UnifiedMemoryIndex.empty, max_hot_memories := 1000,
    max_warm_memories := 5000, cleanup_interval := 100,
    operation_count := 0, nextId := 0, dbFails := false }

/-- Python dict / sqlite lookup by key on an association list. -/
def alookup (l : List (Nat × UnifiedMemoryEntry)) (k : Nat) :
    Option UnifiedMemoryEntry :=
  (l.find? (fun p => p.1 = k)).map (fun p => p.2)

/-- Python `d[k] = v` / sqlite `INSERT OR REPLACE`: replace in place
when the key exists, append otherwise. -/
def upsert (l : List (Nat × UnifiedMemoryEntry)) (k : Nat)
    (v : UnifiedMemoryEntry) : List (Nat × UnifiedMemoryEntry) :=
  if l.any (fun p => p.1 = k) then
    l.map (fun p => if p.1 = k then (k, v) else p)
  else l ++ [(k, v)]

/-- Python `del d[k]`. -/
def eraseKey (l : List (Nat × UnifiedMemoryEntry)) (k : Nat) :
    List (Nat × UnifiedMemoryEntry) :=
  l.filter (fun p => p.1 ≠ k)

/-- `UnifiedMemorySystem._persist_memory`: upsert into the database; on
a storage I/O failure the exception is logged and swallowed, leaving
the database unchanged. -/
def UnifiedMemorySystem._persist_memory (st : UnifiedMemorySystem)
    (m : UnifiedMemoryEntry) : UnifiedMemorySystem :=
  if st.dbFails then st else { st with db := upsert st.db m.id m }

/-- `UnifiedMemorySystem._get_memory_by_id`: hot dict, then warm dict,
then the database; a database read error is logged and yields `none`. -/
def UnifiedMemorySystem._get_memory_by_id (st : UnifiedMemorySystem) (k : Nat) :
    Option UnifiedMemoryEntry :=
  match alookup st.hot_memories k with
  | some m => some m
  | none =>
    match alookup st.warm_memories k with
    | some m => some m
    | none => if st.dbFails then none else alookup st.db k

/-- In the source, entries handed out by `_get_memory_by_id` are the
very objects held by the hot/warm dicts, so mutating them mutates the
dict contents; an entry resolved from the database is a transient copy.
`writeBack` models that aliasing for a pure state. -/
def writeBack (st : UnifiedMemorySystem) (k : Nat) (m : UnifiedMemoryEntry) :
    UnifiedMemorySystem :=
  if (alookup st.hot_memories k).isSome then
    { st with hot_memories := upsert st.hot_memories k m }
  else if (alookup st.warm_memories k).isSome then
    { st with warm_memories := upsert st.warm_memories k m }
  else st

/-- `key=lambda m: (m.last_accessed, m.importance)` ascending. -/
def tierLe (a b : UnifiedMemoryEntry) : Prop :=
  a.last_accessed < b.last_accessed ∨
    (a.last_accessed = b.last_accessed ∧ a.importance ≤ b.importance)

instance : DecidableRel tierLe := fun a b => by
  unfold tierLe; infer_instance

/-- `_demote_cold_hot_memories`: move the bottom 10 % (at least one) of
the hot entries, sorted ascending by `(last_accessed, importance)`, to
the warm tier and persist each. -/
def UnifiedMemorySystem._demote_cold_hot_memories (st : UnifiedMemorySystem) :
    UnifiedMemorySystem :=
  let hot_list := List.insertionSort tierLe (st.hot_memories.map (fun p => p.2))
  let demote_count := max 1 (hot_list.length / 10)
  (hot_list.take demote_count).foldl
    (fun s m =>
      let m' := { m with storage_tier := StorageTier.warm }
      UnifiedMemorySystem._persist_memory
        { s with warm_memories := upsert s.warm_memories m.id m',
                 hot_memories := eraseKey s.hot_memories m.id } m')
    st

/-- `_demote_cold_warm_memories`: likewise from warm to cold (cold
entries live only in the database). -/
def UnifiedMemorySystem._demote_cold_warm_memories (st : UnifiedMemorySystem) :
    UnifiedMemorySystem :=
  let warm_list := List.insertionSort tierLe (st.warm_memories.map (fun p => p.2))
  let demote_count := max 1 (warm_list.length / 10)
  (warm_list.take demote_count).foldl
    (fun s m =>
      let m' := { m with storage_tier := StorageTier.cold }
      UnifiedMemorySystem._persist_memory
        { s with warm_memories := eraseKey s.warm_memories m.id } m')
    st

/-- `_store_in_tier`: importance ≥ 0.7 or kind in
{conversation, relationship} goes hot, else importance ≥ 0.4 goes
warm, else cold (database only); an over-full tier demotes its bottom
slice. -/
def UnifiedMemorySystem._store_in_tier (st : UnifiedMemorySystem)
    (m : UnifiedMemoryEntry) : UnifiedMemorySystem :=
  if m.importance ≥ 0.7 ∨
      [MemoryType.conversation, MemoryType.relationship].contains m.memory_type then
    let m' := { m with storage_tier := StorageTier.hot }
    let st1 := { st with hot_memories := upsert st.hot_memories m.id m' }
    if st1.hot_memories.length > st1.max_hot_memories then
      st1._demote_cold_hot_memories
    else st1
  else if m.importance ≥ 0.4 then
    let m' := { m with storage_tier := StorageTier.warm }
    let st1 := { st with warm_memories := upsert st.warm_memories m.id m' }
    if st1.warm_memories.length > st1.max_warm_memories then
      st1._demote_cold_warm_memories
    else st1
  else st

/-- The current value of the entry object `m` after `_store_in_tier`
(the source keeps mutating the same Python object, which a demotion may
already have moved and re-tiered): whatever the tier dicts now hold
under its id, else the cold-tier version. -/
def currentEntry (st : UnifiedMemorySystem) (m : UnifiedMemoryEntry) :
    UnifiedMemoryEntry :=
  match alookup st.hot_memories m.id with
  | some e => e
  | none =>
    match alookup st.warm_memories m.id with
    | some e => e
    | none => { m with storage_tier := StorageTier.cold }

/-- The candidate loop of `_check_for_duplicates`: the first candidate
(in index order) whose word-set Jaccard similarity with the new content
exceeds 0.8 is merged into — its access count incremented, its last
access refreshed, its importance raised to the max — and persisted;
`none` when no candidate matches. -/
def UnifiedMemorySystem._check_for_duplicates_loop (st : UnifiedMemorySystem)
    (now : ℚ) (new_memory : UnifiedMemoryEntry) (content_words : List String) :
    List Nat → Option UnifiedMemorySystem
  | [] => none
  | cid :: rest =>
    match st._get_memory_by_id cid with
    | none => st._check_for_duplicates_loop now new_memory content_words rest
    | some existing =>
      let existing_words := wordSet existing.content
      if content_words ≠ [] ∧ existing_words ≠ [] then
        let overlap := (sinter content_words existing_words).length
        let total := (sunion content_words existing_words).length
        let similarity : ℚ := if total > 0 then (overlap : ℚ) / (total : ℚ) else 0
        if (0.8 : ℚ) < similarity then
          let existing' :=
            { existing with
                frequency_accessed := existing.frequency_accessed + 1,
                last_accessed := now,
                importance :=
                  if existing.importance < new_memory.importance then
                    new_memory.importance
                  else existing.importance }
          some ((writeBack st cid existing')._persist_memory existing')
        else st._check_for_duplicates_loop now new_memory content_words rest
      else st._check_for_duplicates_loop now new_memory content_words rest

/-- `_check_for_duplicates`: search the index for up to 20 entries of
the same kind and category and run the candidate loop. -/
def UnifiedMemorySystem._check_for_duplicates (st : UnifiedMemorySystem)
    (now : ℚ) (new_memory : UnifiedMemoryEntry) : Option UnifiedMemorySystem :=
  let content_words := wordSet new_memory.content
  let similar_candidates :=
    st.index.search "" [new_memory.memory_type] [new_memory.category] [] 20
  st._check_for_duplicates_loop now new_memory content_words similar_candidates

/-- `_perform_cleanup`: on the database, hard-delete rows older than 30
days with importance < 0.3 and access count < 2, then re-tier rows with
a stale `last_accessed` and importance < 0.4 down to cold.  A failing
backend makes both statements no-ops. -/
def UnifiedMemorySystem._perform_cleanup (st : UnifiedMemorySystem) (now : ℚ) :
    UnifiedMemorySystem :=
  if st.dbFails then st
  else
    let cutoff_time := now - 30 * 24 * 3600
    let db1 := st.db.filter (fun p =>
      ¬ (p.2.timestamp < cutoff_time ∧ p.2.importance < 0.3 ∧
         p.2.frequency_accessed < 2))
    let db2 := db1.map (fun p =>
      if p.2.last_accessed < cutoff_time ∧ p.2.importance < 0.4 then
        (p.1, { p.2 with storage_tier := StorageTier.cold })
      else p)
    { st with db := db2 }

/-- `store_memory`: build the entry (scoring fields at their dataclass
defaults), return the sentinel on deduplication, otherwise place it in
a tier, index it, persist it, and run the periodic cleanup every
`cleanup_interval` operations. -/
def UnifiedMemorySystem.store_memory (st : UnifiedMemorySystem) (now : ℚ)
    (content : String) (memory_type : MemoryType) (category : String)
    (importance : ℚ) (context : String) (tags : List String) :
    Option Nat × UnifiedMemorySystem :=
  let memory_id := st.nextId
  let memory : UnifiedMemoryEntry :=
    { id := memory_id, content := content, memory_type := memory_type,
      category := category, importance := importance, timestamp := now,
      context := context, tags := tags }
  match st._check_for_duplicates now memory with
  | some st' => (none, st')
  | none =>
    let st1 := UnifiedMemorySystem._store_in_tier
      { st with nextId := st.nextId + 1 } memory
    let mem1 := currentEntry st1 memory
    let st2 := { st1 with index := st1.index.add_entry memory_id mem1 }
    let st3 := st2._persist_memory mem1
    let st4 := { st3 with operation_count := st3.operation_count + 1 }
    let st5 :=
      if st4.operation_count % st4.cleanup_interval = 0 then
        st4._perform_cleanup now
      else st4
    (some memory_id, st5)

/-- The candidate-resolution loop of `retrieve_memories`: resolve each
id, drop entries below the importance floor, and apply the access
bookkeeping to every kept entry (mutating the tier dicts through the
shared object, never the database). -/
def UnifiedMemorySystem.resolveCandidates (st : UnifiedMemorySystem) (now : ℚ)
    (min_importance : ℚ) :
    List Nat → List UnifiedMemoryEntry × UnifiedMemorySystem
  | [] => ([], st)
  | cid :: rest =>
    match st._get_memory_by_id cid with
    | none => st.resolveCandidates now min_importance rest
    | some m =>
      if m.importance ≥ min_importance then
        let m' := m.update_access now
        let st' := writeBack st cid m'
        let p := st'.resolveCandidates now min_importance rest
        (m' :: p.1, p.2)
      else st.resolveCandidates now min_importance rest

/-- `memories.sort(key=lambda m: m.calculate_relevance_score(query),
reverse=True)`: `a` may come before `b` iff `b`'s score is at most
`a`'s; with the stable insertion sort this is exactly Python's stable
descending sort. -/
def relRank (query : String) (now : ℚ) (a b : UnifiedMemoryEntry) : Prop :=
  b.calculate_relevance_score query now ≤ a.calculate_relevance_score query now

instance : DecidableRel (relRank query now) := fun a b => by
  unfold relRank; infer_instance

/-- `retrieve_memories`: over-fetch `max_results * 3` candidate ids,
resolve and mark them accessed, rank by relevance descending (stable),
and return the first `max_results`. -/
def UnifiedMemorySystem.retrieve_memories (st : UnifiedMemorySystem) (now : ℚ)
    (query : String) (memory_types : List MemoryType) (categories : List String)
    (tags : List String) (max_results : Nat) (min_importance : ℚ) :
    List UnifiedMemoryEntry × UnifiedMemorySystem :=
  let candidate_ids :=
    st.index.search query memory_types categories tags (max_results * 3)
  let p := st.resolveCandidates now min_importance candidate_ids
  let ranked := List.insertionSort (relRank query now) p.1
  (ranked.take max_results, p.2)

/-- C1 (counterexample): `store_memory` performs no clamping — a
caller-supplied importance of 1.5 is stored verbatim, so the freshly
stored hot-tier entry violates `importance ≤ 1`. -/
theorem importance_not_clamped_cex :
    (alookup (UnifiedMemorySystem.init.store_memory 0 "hi" MemoryType.knowledge "c"
        (3/2) "" []).2.hot_memories 0).map (fun e => e.importance) = some (3/2) ∧
    ¬ ((3/2 : ℚ) ≤ 1) := by
  constructor <;> with_unfolding_all decide

/-- C2 (counterexample): content without a single word token ("???")
defeats the duplicate check (`if content_words and existing_words`
fails), so storing it twice in immediate succession persists two rows
and the second call returns a fresh id, not the sentinel. -/
theorem store_twice_tokenless_cex :
    (let r1 := UnifiedMemorySystem.init.store_memory 0 "???"
        MemoryType.conversation "chat" 0.6 "" []
     let r2 := r1.2.store_memory 1 "???" MemoryType.conversation "chat" 0.6 "" []
     r2.1 = some 1 ∧ r2.2.db.length = 2) := by
  constructor <;> with_unfolding_all decide

/-- C4 (counterexample): an entry stored with importance 0.1 and kind
`conversation` is placed in the Hot in-memory map immediately — the
kind-based arm of the placement rule overrides the low importance. -/
theorem low_importance_conversation_hot_cex :
    (let r := UnifiedMemorySystem.init.store_memory 0 "hi"
        MemoryType.conversation "c" 0.1 "" []
     r.1 = some 0 ∧ (alookup r.2.hot_memories 0).isSome = true) := by
  constructor <;> with_unfolding_all decide

/-- Scenario state for the retrieval tie counterexample: id 0 stored at
time 50 with importance 0.95, id 1 stored at time 100 with importance
0.9; both relevance scores clamp to 1 at query time 100. -/
def tieScenario : UnifiedMemorySystem :=
  (((UnifiedMemorySystem.init.store_memory 50 "bravo" MemoryType.knowledge "k"
      (19/20) "" []).2).store_memory 100 "alpha" MemoryType.knowledge "k"
      (9/10) "" []).2

/-- C6 (counterexample): both entries tie at relevance 1, yet
`retrieve_memories` returns the lower-importance entry (id 1,
importance 0.9) before the higher-importance one (id 0, importance
0.95): the sort key is the relevance score alone and ties keep the
candidate order, so ties are NOT broken by higher importance or by
more recent creation. -/
theorem retrieval_tie_not_broken_by_importance_cex :
    (let res := (tieScenario.retrieve_memories 100 "" [] [] [] 10 0).1
     res.map (fun e => e.id) = [1, 0] ∧
     res.map (fun e => e.calculate_relevance_score "" 100) = [1, 1] ∧
     res.map (fun e => e.importance) = [9/10, 19/20] ∧
     ¬ ((19/20 : ℚ) ≤ 9/10)) := by
  refine ⟨?_, ?_, ?_, ?_⟩ <;> with_unfolding_all decide

/-- 25 stores of the identical conversation content "hello world" into
one category, at times 0, 1, …, 24. -/
def storeHelloN : Nat → UnifiedMemorySystem
  | 0 => UnifiedMemorySystem.init
  | n + 1 => ((storeHelloN n).store_memory (n : ℚ) "hello world"
      MemoryType.conversation "chat" 0.6 "" []).2

set_option maxRecDepth 100000 in
set_option maxHeartbeats 1000000 in
/-- C7 (counterexample): after 25 identical stores exactly one row
exists, but its access count is 24, not 25 — the first insert starts
the counter at 0 and only the 24 merges increment it. -/
theorem dedup_25_access_count_cex :
    (storeHelloN 25).db.map (fun p => p.2.frequency_accessed) = [24] ∧
    (storeHelloN 25).db.map (fun p => p.2.frequency_accessed) ≠ [25] := by
  constructor <;> with_unfolding_all decide

/-- A database row whose access count (3) exceeds 2 but whose
`last_accessed` is far in the past and importance is below 0.4. -/
def sweepEntry : UnifiedMemoryEntry :=
  { id := 0, content := "x", memory_type := MemoryType.knowledge, category := "c",
    importance := 1/5, timestamp := 0, frequency_accessed := 3, last_accessed := 0,
    storage_tier := StorageTier.hot }

/-- A system whose database holds exactly `sweepEntry`. -/
def sweepState : UnifiedMemorySystem :=
  { UnifiedMemorySystem.init with db := [(0, sweepEntry)] }

/-- C8 (counterexample): the re-tiering pass of the maintenance sweep
checks only `last_accessed` and importance, not the access count — the
row with access count 3 is re-tiered down to cold. -/
theorem sweep_retiers_frequently_accessed_cex :
    (alookup (sweepState._perform_cleanup 3000000).db 0).map
        (fun e => e.storage_tier) = some StorageTier.cold ∧
    sweepEntry.frequency_accessed = 3 ∧
    sweepEntry.storage_tier ≠ StorageTier.cold := by
  refine ⟨?_, ?_, ?_⟩ <;> with_unfolding_all decide

/-- A fresh system whose durable backend raises on every access. -/
def failingBackend : UnifiedMemorySystem :=
  { UnifiedMemorySystem.init with dbFails := true }

/-- C9 (counterexample): with the durable backend failing,
`store_memory` still returns the new id (`_persist_memory` logs and
swallows the error) while the database keeps no row for it — it does
not fail closed. -/
theorem store_returns_id_on_persist_failure_cex :
    (let r := failingBackend.store_memory 0 "x" MemoryType.knowledge "c"
        (1/2) "" []
     r.1 = some 0 ∧ r.2.db = []) := by
  constructor <;> with_unfolding_all decide

set_option maxRecDepth 100000 in
set_option maxHeartbeats 1000000 in
/-- C7 (amended): after storing 25 conversation entries with identical
content (Jaccard similarity 1 > 0.8) in one category, exactly one entry
exists for that content and its access count equals 24: the first
insert creates the row with count 0 and each of the 24 following
stores merges into it, incrementing the count. -/
theorem dedup_25_single_row_count_24 :
    (storeHelloN 25).db.length = 1 ∧
    (storeHelloN 25).db.map (fun p => p.2.frequency_accessed) = [24] ∧
    (storeHelloN 25).hot_memories.map (fun p => p.2.frequency_accessed) = [24] := by
  refine ⟨?_, ?_, ?_⟩ <;> with_unfolding_all decide

/-- `writeBack` touches only the in-memory tier dicts. -/
@[simp] theorem writeBack_db (st : UnifiedMemorySystem) (k : Nat)
    (m : UnifiedMemoryEntry) : (writeBack st k m).db = st.db := by
  unfold writeBack; split_ifs <;> rfl

/-- `writeBack` does not change the failure flag. -/
@[simp] theorem writeBack_dbFails (st : UnifiedMemorySystem) (k : Nat)
    (m : UnifiedMemoryEntry) : (writeBack st k m).dbFails = st.dbFails := by
  unfold writeBack; split_ifs <;> rfl

/-- `_persist_memory` keeps the failure flag. -/
@[simp] theorem persist_dbFails (st : UnifiedMemorySystem)
    (m : UnifiedMemoryEntry) : (st._persist_memory m).dbFails = st.dbFails := by
  unfold UnifiedMemorySystem._persist_memory; split_ifs <;> rfl

/-- With a failing backend, `_persist_memory` leaves the database
untouched. -/
theorem persist_db_of_fails {st : UnifiedMemorySystem} (h : st.dbFails = true)
    (m : UnifiedMemoryEntry) : (st._persist_memory m).db = st.db := by
  unfold UnifiedMemorySystem._persist_memory; rw [if_pos h]

/-- The candidate-resolution loop of retrieval never writes to the
database. -/
theorem resolveCandidates_db (now min_importance : ℚ) :
    ∀ (ids : List Nat) (st : UnifiedMemorySystem),
      (st.resolveCandidates now min_importance ids).2.db = st.db
  | [], _ => rfl
  | cid :: rest, st => by
    unfold UnifiedMemorySystem.resolveCandidates
    cases h : st._get_memory_by_id cid with
    | none => simpa using resolveCandidates_db now min_importance rest st
    | some m =>
      simp only
      split_ifs with hi
      · simp only
        rw [resolveCandidates_db now min_importance rest _]
        exact writeBack_db ..
      · exact resolveCandidates_db now min_importance rest st

/-- C10: `retrieve_memories` never writes to the durable store — for
every state and every retrieval request, the database contents are
identical before and after the call; the access-count bookkeeping made
by `update_access` lives only in the in-memory hot/warm maps (and in
transient copies of cold rows), and the retrieval path never persists
it. -/
theorem retrieve_memories_preserves_db (st : UnifiedMemorySystem) (now : ℚ)
    (query : String) (memory_types : List MemoryType) (categories : List String)
    (tags : List String) (max_results : Nat) (min_importance : ℚ) :
    (st.retrieve_memories now query memory_types categories tags max_results
      min_importance).2.db = st.db := by
  unfold UnifiedMemorySystem.retrieve_memories
  exact resolveCandidates_db ..


/-- Folding a database-preserving step over a list preserves the
database and the failure flag. -/
theorem foldl_db_of_fails {β : Type}
    (f : UnifiedMemorySystem → β → UnifiedMemorySystem)
    (hf : ∀ s b, s.dbFails = true → (f s b).db = s.db ∧ (f s b).dbFails = true) :
    ∀ (l : List β) (s : UnifiedMemorySystem), s.dbFails = true →
      (l.foldl f s).db = s.db ∧ (l.foldl f s).dbFails = true
  | [], _, h => ⟨rfl, h⟩
  | b :: l, s, h => by
    have h1 := hf s b h
    have h2 := foldl_db_of_fails f hf l (f s b) h1.2
    simp only [List.foldl_cons]
    exact ⟨h2.1.trans h1.1, h2.2⟩

/-- With a failing backend, hot-tier demotion cannot write rows. -/
theorem demote_hot_db_of_fails {st : UnifiedMemorySystem} (h : st.dbFails = true) :
    st._demote_cold_hot_memories.db = st.db ∧
    st._demote_cold_hot_memories.dbFails = true := by
  simp only [UnifiedMemorySystem._demote_cold_hot_memories]
  refine foldl_db_of_fails _ ?_ _ st h
  intro s b hs
  refine ⟨persist_db_of_fails ?_ _, Eq.trans (persist_dbFails _ _) hs⟩
  exact hs

/-- With a failing backend, warm-tier demotion cannot write rows. -/
theorem demote_warm_db_of_fails {st : UnifiedMemorySystem} (h : st.dbFails = true) :
    st._demote_cold_warm_memories.db = st.db ∧
    st._demote_cold_warm_memories.dbFails = true := by
  simp only [UnifiedMemorySystem._demote_cold_warm_memories]
  refine foldl_db_of_fails _ ?_ _ st h
  intro s b hs
  refine ⟨persist_db_of_fails ?_ _, Eq.trans (persist_dbFails _ _) hs⟩
  exact hs

/-- With a failing backend, tier placement cannot write rows. -/
theorem store_in_tier_db_of_fails {st : UnifiedMemorySystem}
    (h : st.dbFails = true) (m : UnifiedMemoryEntry) :
    (st._store_in_tier m).db = st.db ∧ (st._store_in_tier m).dbFails = true := by
  simp only [UnifiedMemorySystem._store_in_tier]
  split_ifs
  · refine ⟨(demote_hot_db_of_fails ?_).1, (demote_hot_db_of_fails ?_).2⟩ <;>
      exact h
  · exact ⟨rfl, h⟩
  · refine ⟨(demote_warm_db_of_fails ?_).1, (demote_warm_db_of_fails ?_).2⟩ <;>
      exact h
  · exact ⟨rfl, h⟩
  · exact ⟨rfl, h⟩

/-- With a failing backend, the periodic cleanup is a no-op. -/
theorem cleanup_of_fails {st : UnifiedMemorySystem} (h : st.dbFails = true)
    (now : ℚ) : st._perform_cleanup now = st := by
  unfold UnifiedMemorySystem._perform_cleanup
  exact if_pos h

/-- With a failing backend, a successful duplicate merge cannot write
its update to the database. -/
theorem dup_loop_db_of_fails (now : ℚ) (nm : UnifiedMemoryEntry)
    (cw : List String) :
    ∀ (ids : List Nat) (st : UnifiedMemorySystem), st.dbFails = true →
      ∀ st', st._check_for_duplicates_loop now nm cw ids = some st' →
        st'.db = st.db
  | [], _, _, _, heq => by
    simp [UnifiedMemorySystem._check_for_duplicates_loop] at heq
  | cid :: rest, st, h, st', heq => by
    unfold UnifiedMemorySystem._check_for_duplicates_loop at heq
    cases hg : st._get_memory_by_id cid with
    | none =>
      rw [hg] at heq
      dsimp only at heq
      exact dup_loop_db_of_fails now nm cw rest st h st' heq
    | some ex =>
      rw [hg] at heq
      dsimp only at heq
      split_ifs at heq <;>
        first
          | exact dup_loop_db_of_fails now nm cw rest st h st' heq
          | (rw [← Option.some.inj heq,
              persist_db_of_fails (by rw [writeBack_dbFails]; exact h),
              writeBack_db])

/-- C9 (amended): on a storage I/O failure of the durable backend the
error is logged and swallowed, never failing the operation closed: the
database is left exactly as it was, but `store_memory` still proceeds —
for a non-duplicate it still returns the id of the entry it could not
durably write (the witness shows a concrete call returning `some 0`
while the database stays empty). -/
theorem store_memory_db_unchanged_on_failure (st : UnifiedMemorySystem)
    (h : st.dbFails = true) (now : ℚ) (content : String)
    (memory_type : MemoryType) (category : String) (importance : ℚ)
    (context : String) (tags : List String) :
    (st.store_memory now content memory_type category importance context
      tags).2.db = st.db := by
  simp only [UnifiedMemorySystem.store_memory,
    UnifiedMemorySystem._check_for_duplicates]
  cases hd : UnifiedMemorySystem._check_for_duplicates_loop st now
      { id := st.nextId, content := content, memory_type := memory_type,
        category := category, importance := importance, timestamp := now,
        context := context, tags := tags }
      (wordSet content)
      (st.index.search "" [memory_type] [category] [] 20) with
  | some st' =>
    simp only [hd]
    exact dup_loop_db_of_fails _ _ _ _ st h st' hd
  | none =>
    simp only [hd]
    generalize hS : UnifiedMemorySystem._store_in_tier
      { st with nextId := st.nextId + 1 }
      { id := st.nextId, content := content, memory_type := memory_type,
        category := category, importance := importance, timestamp := now,
        context := context, tags := tags } = s1
    have h2 := @store_in_tier_db_of_fails
      { st with nextId := st.nextId + 1 } h
      { id := st.nextId, content := content, memory_type := memory_type,
        category := category, importance := importance, timestamp := now,
        context := context, tags := tags }
    rw [hS] at h2
    generalize currentEntry s1
      { id := st.nextId, content := content, memory_type := memory_type,
        category := category, importance := importance, timestamp := now,
        context := context, tags := tags } = m1
    generalize hs3 : UnifiedMemorySystem._persist_memory
      { s1 with index := s1.index.add_entry st.nextId m1 } m1 = s3
    have h3 : s3.db = st.db ∧ s3.dbFails = true := by
      rw [← hs3]
      constructor
      · exact (@persist_db_of_fails
          { s1 with index := s1.index.add_entry st.nextId m1 }
          h2.2 m1).trans h2.1
      · exact (persist_dbFails _ _).trans h2.2
    split_ifs
    · rw [@cleanup_of_fails
        { s3 with operation_count := s3.operation_count + 1 } h3.2 now]
      exact h3.1
    · exact h3.1

/-- C9 witness: a concrete store on a fresh system with a failing
backend leaves the (empty) database unchanged. -/
theorem store_memory_db_unchanged_on_failure_witness :
    (failingBackend.store_memory 0 "x" MemoryType.knowledge "c" (1/2) "" []).2.db
      = failingBackend.db :=
  store_memory_db_unchanged_on_failure failingBackend rfl 0 "x"
    MemoryType.knowledge "c" (1/2) "" []

/-- Looking up a key after the cleanup's delete-then-retier passes: a
row that does not meet the delete condition survives, unchanged except
possibly re-tiered to cold. -/
theorem alookup_filter_map_cleanup (cutoff : ℚ) :
    ∀ (l : List (Nat × UnifiedMemoryEntry)) (k : Nat) (m : UnifiedMemoryEntry),
      alookup l k = some m →
      ¬ (m.timestamp < cutoff ∧ m.importance < 0.3 ∧ m.frequency_accessed < 2) →
      alookup ((l.filter (fun p =>
          ¬ (p.2.timestamp < cutoff ∧ p.2.importance < 0.3 ∧
             p.2.frequency_accessed < 2))).map (fun p =>
            if p.2.last_accessed < cutoff ∧ p.2.importance < 0.4 then
              (p.1, { p.2 with storage_tier := StorageTier.cold })
            else p)) k = some m ∨
      alookup ((l.filter (fun p =>
          ¬ (p.2.timestamp < cutoff ∧ p.2.importance < 0.3 ∧
             p.2.frequency_accessed < 2))).map (fun p =>
            if p.2.last_accessed < cutoff ∧ p.2.importance < 0.4 then
              (p.1, { p.2 with storage_tier := StorageTier.cold })
            else p)) k = some { m with storage_tier := StorageTier.cold }
  | [], k, m, hm, _ => by simp [alookup] at hm
  | (k', m') :: rest, k, m, hm, hsurv => by
    by_cases hk : k' = k
    · subst hk
      have hm' : m' = m := by
        simp [alookup, List.find?_cons_of_pos] at hm
        exact hm
      subst hm'
      rw [List.filter_cons_of_pos (by simp only [decide_eq_true_eq]; exact hsurv)]
      by_cases hre : m'.last_accessed < cutoff ∧ m'.importance < 0.4
      · right
        simp [alookup, List.find?_cons_of_pos, hre]
      · left
        simp [alookup, List.find?_cons_of_pos, hre]
    · have hmrest : alookup rest k = some m := by
        simpa [alookup, List.find?_cons_of_neg, hk] using hm
      have ih := alookup_filter_map_cleanup cutoff rest k m hmrest hsurv
      by_cases hkeep : ¬ (m'.timestamp < cutoff ∧ m'.importance < 0.3 ∧
          m'.frequency_accessed < 2)
      · rw [List.filter_cons_of_pos (by simp only [decide_eq_true_eq]; exact hkeep)]
        by_cases hre : m'.last_accessed < cutoff ∧ m'.importance < 0.4 <;>
          simpa [alookup, List.map_cons, List.find?, hre, hk] using ih
      · rw [List.filter_cons_of_neg (by simp only [decide_eq_true_eq]; exact hkeep)]
        exact ih

/-- C8 (amended): the maintenance sweep never hard-deletes an entry
whose access count is greater than 2 — the delete pass requires
`frequency_accessed < 2` — so such a row always survives the sweep
with all fields intact; however, the re-tiering pass does not consult
the access count, so the surviving row may still be re-tiered down to
cold when it is stale and of importance below 0.4. -/
theorem sweep_never_deletes_frequent (st : UnifiedMemorySystem) (now : ℚ)
    (k : Nat) (m : UnifiedMemoryEntry) (hm : alookup st.db k = some m)
    (hf : m.frequency_accessed > 2) :
    alookup (st._perform_cleanup now).db k = some m ∨
    alookup (st._perform_cleanup now).db k =
      some { m with storage_tier := StorageTier.cold } := by
  unfold UnifiedMemorySystem._perform_cleanup
  by_cases hb : st.dbFails = true
  · rw [if_pos hb]
    exact Or.inl hm
  · rw [if_neg hb]
    exact alookup_filter_map_cleanup (now - 30 * 24 * 3600) st.db k m hm
      (fun hc => absurd hc.2.2 (by omega))

/-- C8 witness: applied to the concrete one-row database whose entry
has access count 3. -/
theorem sweep_never_deletes_frequent_witness :
    alookup (sweepState._perform_cleanup 3000000).db 0 = some sweepEntry ∨
    alookup (sweepState._perform_cleanup 3000000).db 0 =
      some { sweepEntry with storage_tier := StorageTier.cold } :=
  sweep_never_deletes_frequent sweepState 3000000 0 sweepEntry
    (by with_unfolding_all decide) (by decide)

/-- `_persist_memory` does not touch the hot map. -/
@[simp] theorem persist_hot (st : UnifiedMemorySystem) (m : UnifiedMemoryEntry) :
    (st._persist_memory m).hot_memories = st.hot_memories := by
  unfold UnifiedMemorySystem._persist_memory; split_ifs <;> rfl

/-- `_persist_memory` does not touch the warm map. -/
@[simp] theorem persist_warm (st : UnifiedMemorySystem) (m : UnifiedMemoryEntry) :
    (st._persist_memory m).warm_memories = st.warm_memories := by
  unfold UnifiedMemorySystem._persist_memory; split_ifs <;> rfl

/-- `_perform_cleanup` works on the database only, never the hot map. -/
@[simp] theorem cleanup_hot (st : UnifiedMemorySystem) (now : ℚ) :
    (st._perform_cleanup now).hot_memories = st.hot_memories := by
  unfold UnifiedMemorySystem._perform_cleanup; split_ifs <;> rfl

/-- `_perform_cleanup` never touches the warm map either. -/
@[simp] theorem cleanup_warm (st : UnifiedMemorySystem) (now : ℚ) :
    (st._perform_cleanup now).warm_memories = st.warm_memories := by
  unfold UnifiedMemorySystem._perform_cleanup; split_ifs <;> rfl

/-- A key that is absent makes `upsert` a plain append. -/
theorem upsert_of_alookup_none {l : List (Nat × UnifiedMemoryEntry)} {k : Nat}
    (h : alookup l k = none) (v : UnifiedMemoryEntry) :
    upsert l k v = l ++ [(k, v)] := by
  unfold upsert
  rw [if_neg]
  intro hany
  rw [List.any_eq_true] at hany
  obtain ⟨p, hp, hpk⟩ := hany
  rw [alookup, Option.map_eq_none', List.find?_eq_none] at h
  exact h p hp hpk

/-- Looking up a key just appended. -/
theorem alookup_append_single {l : List (Nat × UnifiedMemoryEntry)} {k : Nat}
    (h : alookup l k = none) (v : UnifiedMemoryEntry) :
    alookup (l ++ [(k, v)]) k = some v := by
  rw [alookup, Option.map_eq_none', List.find?_eq_none] at h
  rw [alookup, List.find?_append]
  have : List.find? (fun p => p.1 = k) l = none := List.find?_eq_none.mpr h
  rw [this]
  simp [List.find?]

/-- Hot placement without overflow: a fresh id below capacity is
appended to the hot map with tier `hot`, and nothing else changes. -/
theorem store_in_tier_hot {st : UnifiedMemorySystem} {m : UnifiedMemoryEntry}
    (hcond : m.importance ≥ 0.7 ∨
      ([MemoryType.conversation, MemoryType.relationship].contains m.memory_type)
        = true)
    (hfresh : alookup st.hot_memories m.id = none)
    (hcap : st.hot_memories.length < st.max_hot_memories) :
    st._store_in_tier m =
      { st with hot_memories :=
          st.hot_memories ++ [(m.id, { m with storage_tier := StorageTier.hot })] } := by
  unfold UnifiedMemorySystem._store_in_tier
  rw [if_pos hcond]
  dsimp only
  rw [upsert_of_alookup_none hfresh]
  rw [if_neg]
  simp only [List.length_append, List.length_singleton]
  omega

/-- Cold placement: the in-memory maps are untouched. -/
theorem store_in_tier_cold {st : UnifiedMemorySystem} {m : UnifiedMemoryEntry}
    (h1 : ¬ (m.importance ≥ 0.7 ∨
      ([MemoryType.conversation, MemoryType.relationship].contains m.memory_type)
        = true))
    (h2 : ¬ m.importance ≥ 0.4) :
    st._store_in_tier m = st := by
  unfold UnifiedMemorySystem._store_in_tier
  rw [if_neg h1, if_neg h2]

/-- The entry object after tier placement, when its id sits in the hot
map. -/
theorem currentEntry_of_hot {st : UnifiedMemorySystem} {m e : UnifiedMemoryEntry}
    (h : alookup st.hot_memories m.id = some e) : currentEntry st m = e := by
  unfold currentEntry
  rw [h]

/-- The entry object after a cold placement: absent from both maps, it
keeps the object with tier `cold`. -/
theorem currentEntry_of_absent {st : UnifiedMemorySystem} {m : UnifiedMemoryEntry}
    (hh : alookup st.hot_memories m.id = none)
    (hw : alookup st.warm_memories m.id = none) :
    currentEntry st m = { m with storage_tier := StorageTier.cold } := by
  unfold currentEntry
  rw [hh, hw]

/-- C4 (amended): immediately after a non-deduplicated `store_memory`
below hot capacity, an entry stored with importance 0.9 and kind
`relationship` sits in the Hot in-memory map; and an entry stored with
importance 0.1 whose kind is NEITHER `conversation` NOR `relationship`
appears in neither the Hot nor the Warm map (it goes straight to the
cold tier).  The kind restriction is forced: the placement rule sends
every `conversation`/`relationship` entry to Hot regardless of its
importance. -/
theorem tier_placement_amended (st : UnifiedMemorySystem) (now : ℚ)
    (content cat ctx : String) (tg : List String) (mt : MemoryType)
    (hfh : alookup st.hot_memories st.nextId = none)
    (hfw : alookup st.warm_memories st.nextId = none)
    (hcap : st.hot_memories.length < st.max_hot_memories) :
    (∀ i, (st.store_memory now content MemoryType.relationship cat (9/10) ctx
        tg).1 = some i →
      alookup (st.store_memory now content MemoryType.relationship cat (9/10)
          ctx tg).2.hot_memories i =
        some { id := st.nextId, content := content,
               memory_type := MemoryType.relationship, category := cat,
               importance := 9/10, timestamp := now, context := ctx,
               tags := tg, storage_tier := StorageTier.hot }) ∧
    (mt ≠ MemoryType.conversation → mt ≠ MemoryType.relationship →
      ∀ i, (st.store_memory now content mt cat (1/10) ctx tg).1 = some i →
        alookup (st.store_memory now content mt cat (1/10) ctx
            tg).2.hot_memories i = none ∧
        alookup (st.store_memory now content mt cat (1/10) ctx
            tg).2.warm_memories i = none) := by
  constructor
  · intro i hi
    simp only [UnifiedMemorySystem.store_memory,
      UnifiedMemorySystem._check_for_duplicates] at hi ⊢
    cases hd : UnifiedMemorySystem._check_for_duplicates_loop st now
        { id := st.nextId, content := content,
          memory_type := MemoryType.relationship, category := cat,
          importance := 9/10, timestamp := now, context := ctx, tags := tg }
        (wordSet content)
        (st.index.search "" [MemoryType.relationship] [cat] [] 20) with
    | some st' =>
      simp only [hd] at hi
      exact Option.noConfusion hi
    | none =>
      simp only [hd] at hi ⊢
      obtain rfl : st.nextId = i := Option.some.inj hi
      have hstep := @store_in_tier_hot
        { st with nextId := st.nextId + 1 }
        { id := st.nextId, content := content,
          memory_type := MemoryType.relationship, category := cat,
          importance := 9/10, timestamp := now, context := ctx,
          tags := tg }
        (Or.inr rfl) hfh hcap
      rw [hstep]
      have hcur := @currentEntry_of_hot
        { { st with nextId := st.nextId + 1 } with hot_memories :=
            ({ st with nextId := st.nextId + 1 } :
              UnifiedMemorySystem).hot_memories ++
            [(st.nextId,
              { id := st.nextId, content := content,
                memory_type := MemoryType.relationship, category := cat,
                importance := 9/10, timestamp := now, context := ctx,
                tags := tg, storage_tier := StorageTier.hot })] }
        { id := st.nextId, content := content,
          memory_type := MemoryType.relationship, category := cat,
          importance := 9/10, timestamp := now, context := ctx,
          tags := tg }
        { id := st.nextId, content := content,
          memory_type := MemoryType.relationship, category := cat,
          importance := 9/10, timestamp := now, context := ctx,
          tags := tg, storage_tier := StorageTier.hot }
        (alookup_append_single hfh _)
      rw [hcur]
      split_ifs <;>
        simp only [cleanup_hot, persist_hot] <;>
        exact alookup_append_single hfh _
  · intro hm1 hm2 i hi
    simp only [UnifiedMemorySystem.store_memory,
      UnifiedMemorySystem._check_for_duplicates] at hi ⊢
    cases hd : UnifiedMemorySystem._check_for_duplicates_loop st now
        { id := st.nextId, content := content, memory_type := mt,
          category := cat, importance := 1/10, timestamp := now,
          context := ctx, tags := tg }
        (wordSet content)
        (st.index.search "" [mt] [cat] [] 20) with
    | some st' =>
      simp only [hd] at hi
      exact Option.noConfusion hi
    | none =>
      simp only [hd] at hi ⊢
      obtain rfl : st.nextId = i := Option.some.inj hi
      have hstep := @store_in_tier_cold
        { st with nextId := st.nextId + 1 }
        { id := st.nextId, content := content, memory_type := mt,
          category := cat, importance := 1/10, timestamp := now,
          context := ctx, tags := tg }
        (by
          dsimp only
          rintro (h | h)
          · norm_num at h
          · cases mt <;>
              first
                | exact absurd h (by decide)
                | exact hm1 rfl
                | exact hm2 rfl)
        (by dsimp only; norm_num)
      rw [hstep]
      have hcur := @currentEntry_of_absent
        { st with nextId := st.nextId + 1 }
        { id := st.nextId, content := content, memory_type := mt,
          category := cat, importance := 1/10, timestamp := now,
          context := ctx, tags := tg }
        hfh hfw
      rw [hcur]
      split_ifs <;>
        simp only [cleanup_hot, persist_hot, cleanup_warm, persist_warm] <;>
        exact ⟨hfh, hfw⟩

/-- C4 witness: on a fresh system, importance 0.9 relationship content
lands in Hot, and importance 0.1 knowledge content is in neither Hot
nor Warm. -/
theorem tier_placement_amended_witness :
    alookup (UnifiedMemorySystem.init.store_memory 0 "r" MemoryType.relationship
        "c" (9/10) "" []).2.hot_memories 0 =
      some { id := 0, content := "r", memory_type := MemoryType.relationship,
             category := "c", importance := 9/10, timestamp := 0, context := "",
             tags := [], storage_tier := StorageTier.hot } ∧
    (alookup (UnifiedMemorySystem.init.store_memory 0 "k" MemoryType.knowledge
        "c" (1/10) "" []).2.hot_memories 0 = none ∧
     alookup (UnifiedMemorySystem.init.store_memory 0 "k" MemoryType.knowledge
        "c" (1/10) "" []).2.warm_memories 0 = none) :=
  ⟨(tier_placement_amended UnifiedMemorySystem.init 0 "r" "c" "" []
      MemoryType.knowledge rfl rfl (by decide)).1 0
      (by with_unfolding_all decide),
   (tier_placement_amended UnifiedMemorySystem.init 0 "k" "c" "" []
      MemoryType.knowledge rfl rfl (by decide)).2
      (by decide) (by decide) 0 (by with_unfolding_all decide)⟩

/-- Unioning in nothing changes nothing. -/
@[simp] theorem sunion_nil {α : Type} [DecidableEq α] (s : List α) :
    sunion s [] = s := rfl

/-- A left accumulator survives a fold that never changes it. -/
@[simp] theorem foldl_const_acc {α β : Type} :
    ∀ (l : List β) (a : α), l.foldl (fun acc _ => acc) a = a
  | [], _ => rfl
  | _ :: l, a => foldl_const_acc l a

/-- Adding a present element is a no-op. -/
theorem addElem_of_mem {α : Type} [DecidableEq α] [LawfulBEq α] {s : List α}
    {x : α} (h : x ∈ s) : addElem s x = s := by
  unfold addElem
  rw [if_pos (List.elem_eq_true_of_mem h)]

/-- Unioning in a subset is a no-op. -/
theorem sunion_of_subset {α : Type} [DecidableEq α] [LawfulBEq α] :
    ∀ {t s : List α}, (∀ x ∈ t, x ∈ s) → sunion s t = s
  | [], _, _ => rfl
  | b :: t, s, h => by
    unfold sunion
    rw [List.foldl_cons, addElem_of_mem (h b (List.mem_cons_self b t))]
    exact sunion_of_subset fun x hx => h x (List.mem_cons_of_mem b hx)

/-- A set intersected with itself. -/
theorem sinter_self {α : Type} [DecidableEq α] [LawfulBEq α] (l : List α) :
    sinter l l = l := by
  unfold sinter
  exact List.filter_eq_self.mpr fun x hx => List.elem_eq_true_of_mem hx

/-- Every search of the empty index comes back empty. -/
theorem search_empty_index (q : String) (mts : List MemoryType)
    (cats tags : List String) (n : Nat) :
    UnifiedMemoryIndex.empty.search q mts cats tags n = [] := by
  unfold UnifiedMemoryIndex.search UnifiedMemoryIndex.empty
  simp only [sunion_nil, foldl_const_acc, ite_self, ne_eq, not_true_eq_false,
    eq_self_iff_true, not_true, if_false, ite_false, List.take_nil,
    List.map_nil, List.foldl_nil]

/-- A fresh system holds no duplicates. -/
theorem check_dup_init (now : ℚ) (m : UnifiedMemoryEntry) :
    UnifiedMemorySystem.init._check_for_duplicates now m = none := by
  unfold UnifiedMemorySystem._check_for_duplicates
  rw [show UnifiedMemorySystem.init.index = UnifiedMemoryIndex.empty from rfl,
    search_empty_index]
  rfl

/-- Warm placement without overflow. -/
theorem store_in_tier_warm {st : UnifiedMemorySystem} {m : UnifiedMemoryEntry}
    (h1 : ¬ (m.importance ≥ 0.7 ∨
      ([MemoryType.conversation, MemoryType.relationship].contains m.memory_type)
        = true))
    (h2 : m.importance ≥ 0.4)
    (hfresh : alookup st.warm_memories m.id = none)
    (hcap : st.warm_memories.length < st.max_warm_memories) :
    st._store_in_tier m =
      { st with warm_memories :=
          st.warm_memories ++ [(m.id, { m with storage_tier := StorageTier.warm })] } := by
  unfold UnifiedMemorySystem._store_in_tier
  rw [if_neg h1, if_pos h2]
  dsimp only
  rw [upsert_of_alookup_none hfresh]
  rw [if_neg]
  simp only [List.length_append, List.length_singleton]
  omega

/-- The entry object after a warm placement. -/
theorem currentEntry_of_warm {st : UnifiedMemorySystem} {m e : UnifiedMemoryEntry}
    (hh : alookup st.hot_memories m.id = none)
    (hw : alookup st.warm_memories m.id = some e) : currentEntry st m = e := by
  unfold currentEntry
  rw [hh, hw]

/-- A healthy backend upserts the row. -/
theorem persist_of_ok {st : UnifiedMemorySystem} (h : st.dbFails = false)
    (m : UnifiedMemoryEntry) :
    st._persist_memory m = { st with db := upsert st.db m.id m } := by
  unfold UnifiedMemorySystem._persist_memory
  rw [if_neg (by rw [h]; exact Bool.false_ne_true)]

/-- The entry created by the first store on a fresh system (id 0,
timestamp `now`), at a given tier. -/
def storedEntry (content : String) (mt : MemoryType) (cat : String) (imp : ℚ)
    (now : ℚ) (ctx : String) (tg : List String) (tier : StorageTier) :
    UnifiedMemoryEntry :=
  { id := 0, content := content, memory_type := mt, category := cat,
    importance := imp, timestamp := now, context := ctx, tags := tg,
    storage_tier := tier }

/-- The system state after one successful store on a fresh system:
the entry sits in the database and in the index, and in the given
hot/warm maps. -/
def oneStoreState (e : UnifiedMemoryEntry)
    (hot warm : List (Nat × UnifiedMemoryEntry)) : UnifiedMemorySystem :=
  { hot_memories := hot, warm_memories := warm, db := [(0, e)],
    index := UnifiedMemoryIndex.empty.add_entry 0 e,
    max_hot_memories := 1000, max_warm_memories := 5000,
    cleanup_interval := 100, operation_count := 1, nextId := 1,
    dbFails := false }

set_option maxHeartbeats 1000000 in
/-- The first store on a fresh system, hot-placement case. -/
theorem first_store_hot (content cat ctx : String) (mt : MemoryType)
    (imp : ℚ) (tg : List String) (now1 : ℚ)
    (h1 : imp ≥ (0.7:ℚ) ∨
      ([MemoryType.conversation, MemoryType.relationship].contains mt) = true) :
    UnifiedMemorySystem.init.store_memory now1 content mt cat imp ctx tg =
      (some 0,
       oneStoreState (storedEntry content mt cat imp now1 ctx tg StorageTier.hot)
         [(0, storedEntry content mt cat imp now1 ctx tg StorageTier.hot)] []) := by
  simp only [UnifiedMemorySystem.store_memory]
  rw [check_dup_init]
  simp only [UnifiedMemorySystem.init, UnifiedMemorySystem._store_in_tier, h1,
    UnifiedMemorySystem._persist_memory, UnifiedMemorySystem._perform_cleanup,
    currentEntry, alookup, upsert, List.find?, List.any_nil, List.map_nil,
    List.nil_append, if_true, if_false, oneStoreState, storedEntry]
  norm_num

set_option maxHeartbeats 1000000 in
/-- The first store on a fresh system, warm-placement case. -/
theorem first_store_warm (content cat ctx : String) (mt : MemoryType)
    (imp : ℚ) (tg : List String) (now1 : ℚ)
    (h1 : ¬ (imp ≥ (0.7:ℚ) ∨
      ([MemoryType.conversation, MemoryType.relationship].contains mt) = true))
    (h2 : imp ≥ (0.4:ℚ)) :
    UnifiedMemorySystem.init.store_memory now1 content mt cat imp ctx tg =
      (some 0,
       oneStoreState (storedEntry content mt cat imp now1 ctx tg StorageTier.warm)
         [] [(0, storedEntry content mt cat imp now1 ctx tg StorageTier.warm)]) := by
  simp only [UnifiedMemorySystem.store_memory]
  rw [check_dup_init]
  simp only [UnifiedMemorySystem.init, UnifiedMemorySystem._store_in_tier, h1, h2,
    UnifiedMemorySystem._persist_memory, UnifiedMemorySystem._perform_cleanup,
    currentEntry, alookup, upsert, List.find?, List.any_nil, List.map_nil,
    List.nil_append, if_true, if_false, oneStoreState, storedEntry]
  norm_num

set_option maxHeartbeats 1000000 in
/-- The first store on a fresh system, cold-placement case. -/
theorem first_store_cold (content cat ctx : String) (mt : MemoryType)
    (imp : ℚ) (tg : List String) (now1 : ℚ)
    (h1 : ¬ (imp ≥ (0.7:ℚ) ∨
      ([MemoryType.conversation, MemoryType.relationship].contains mt) = true))
    (h2 : ¬ imp ≥ (0.4:ℚ)) :
    UnifiedMemorySystem.init.store_memory now1 content mt cat imp ctx tg =
      (some 0,
       oneStoreState (storedEntry content mt cat imp now1 ctx tg StorageTier.cold)
         [] []) := by
  simp only [UnifiedMemorySystem.store_memory]
  rw [check_dup_init]
  simp only [UnifiedMemorySystem.init, UnifiedMemorySystem._store_in_tier, h1, h2,
    UnifiedMemorySystem._persist_memory, UnifiedMemorySystem._perform_cleanup,
    currentEntry, alookup, upsert, List.find?, List.any_nil, List.map_nil,
    List.nil_append, if_true, if_false, oneStoreState, storedEntry]
  norm_num

/-- A one-entry index searched by that entry's kind and category
finds exactly it. -/
theorem search_single_index (e : UnifiedMemoryEntry) :
    (UnifiedMemoryIndex.empty.add_entry 0 e).search "" [e.memory_type]
      [e.category] [] 20 = [0] := by
  unfold UnifiedMemoryIndex.search UnifiedMemoryIndex.add_entry
    UnifiedMemoryIndex.empty
  simp [sunion, addElem, sinter]

set_option maxHeartbeats 1000000 in
/-- Re-storing the very content of the single held entry merges into
it: the sentinel is returned and the single database row has its
access count incremented to 1. -/
theorem second_store_of (S : UnifiedMemorySystem) (e : UnifiedMemoryEntry)
    (ctx2 : String) (tg2 : List String) (now2 : ℚ)
    (content : String) (mt : MemoryType) (cat : String) (imp : ℚ)
    (hidx : S.index = UnifiedMemoryIndex.empty.add_entry 0 e)
    (hget : S._get_memory_by_id 0 = some e)
    (hid : e.id = 0)
    (hc : e.content = content) (hmt : e.memory_type = mt)
    (hcat : e.category = cat) (himp : e.importance = imp)
    (hfr : e.frequency_accessed = 0)
    (hdb : S.db = [(0, e)]) (hfl : S.dbFails = false)
    (hw : wordSet content ≠ []) :
    (S.store_memory now2 content mt cat imp ctx2 tg2).1 = none ∧
    (S.store_memory now2 content mt cat imp ctx2 tg2).2.db.map
      (fun p => p.2.frequency_accessed) = [1] := by
  subst hc hmt hcat himp
  simp only [UnifiedMemorySystem.store_memory,
    UnifiedMemorySystem._check_for_duplicates]
  rw [hidx, search_single_index]
  unfold UnifiedMemorySystem._check_for_duplicates_loop
  rw [hget]
  dsimp only
  rw [if_pos ⟨hw, hw⟩]
  rw [sinter_self, sunion_of_subset (fun x hx => hx)]
  rw [if_pos (List.length_pos.mpr hw)]
  rw [div_self (Nat.cast_ne_zero.mpr
    (fun h0 => hw (List.length_eq_zero.mp h0)) : ((wordSet e.content).length : ℚ) ≠ 0)]
  rw [if_pos (by norm_num : (0.8:ℚ) < 1)]
  rw [if_neg (lt_irrefl e.importance)]
  dsimp only
  constructor
  · rfl
  · rw [persist_of_ok (by rw [writeBack_dbFails]; exact hfl)]
    dsimp only
    rw [writeBack_db, hdb, hid]
    simp [upsert, hfr]

/-- C2 (amended): for every content with at least one word token,
storing the same content, kind and category twice in immediate
succession on a fresh system persists exactly one row: the second
call merges into the first entry (Jaccard similarity 1 > 0.8),
returns the empty/sentinel id (`none`), and the one persisted row
carries `accessCount = 1` — incremented by the merge rather than a
second row being inserted.  (The word-token proviso is forced by the
counterexample: tokenless content defeats the similarity check.) -/
theorem store_twice_dedups (content cat ctx : String) (mt : MemoryType)
    (imp : ℚ) (tg : List String) (hw : wordSet content ≠ []) (now1 now2 : ℚ) :
    (UnifiedMemorySystem.init.store_memory now1 content mt cat imp ctx tg).1
      = some 0 ∧
    ((UnifiedMemorySystem.init.store_memory now1 content mt cat imp ctx
        tg).2.store_memory now2 content mt cat imp ctx tg).1 = none ∧
    ((UnifiedMemorySystem.init.store_memory now1 content mt cat imp ctx
        tg).2.store_memory now2 content mt cat imp ctx tg).2.db.map
      (fun p => p.2.frequency_accessed) = [1] := by
  by_cases h1 : imp ≥ (0.7:ℚ) ∨
      ([MemoryType.conversation, MemoryType.relationship].contains mt) = true
  · rw [first_store_hot content cat ctx mt imp tg now1 h1]
    have h := second_store_of
      (oneStoreState (storedEntry content mt cat imp now1 ctx tg StorageTier.hot)
        [(0, storedEntry content mt cat imp now1 ctx tg StorageTier.hot)] [])
      (storedEntry content mt cat imp now1 ctx tg StorageTier.hot)
      ctx tg now2 content mt cat imp rfl rfl rfl rfl rfl rfl rfl rfl rfl rfl hw
    exact ⟨rfl, h.1, h.2⟩
  · by_cases h2 : imp ≥ (0.4:ℚ)
    · rw [first_store_warm content cat ctx mt imp tg now1 h1 h2]
      have h := second_store_of
        (oneStoreState (storedEntry content mt cat imp now1 ctx tg StorageTier.warm)
          [] [(0, storedEntry content mt cat imp now1 ctx tg StorageTier.warm)])
        (storedEntry content mt cat imp now1 ctx tg StorageTier.warm)
        ctx tg now2 content mt cat imp rfl rfl rfl rfl rfl rfl rfl rfl rfl rfl hw
      exact ⟨rfl, h.1, h.2⟩
    · rw [first_store_cold content cat ctx mt imp tg now1 h1 h2]
      have h := second_store_of
        (oneStoreState (storedEntry content mt cat imp now1 ctx tg StorageTier.cold)
          [] [])
        (storedEntry content mt cat imp now1 ctx tg StorageTier.cold)
        ctx tg now2 content mt cat imp rfl rfl rfl rfl rfl rfl rfl rfl rfl rfl hw
      exact ⟨rfl, h.1, h.2⟩

/-- C2 witness: the concrete double store of "hello". -/
theorem store_twice_dedups_witness :
    (UnifiedMemorySystem.init.store_memory 0 "hello" MemoryType.conversation
      "chat" (1/2) "" []).1 = some 0 ∧
    ((UnifiedMemorySystem.init.store_memory 0 "hello" MemoryType.conversation
        "chat" (1/2) "" []).2.store_memory 1 "hello" MemoryType.conversation
        "chat" (1/2) "" []).1 = none ∧
    ((UnifiedMemorySystem.init.store_memory 0 "hello" MemoryType.conversation
        "chat" (1/2) "" []).2.store_memory 1 "hello" MemoryType.conversation
        "chat" (1/2) "" []).2.db.map (fun p => p.2.frequency_accessed) = [1] :=
  store_twice_dedups "hello" "chat" "" MemoryType.conversation (1/2) []
    (by with_unfolding_all decide) 0 1

instance relRankTotal (query : String) (now : ℚ) :
    IsTotal UnifiedMemoryEntry (relRank query now) :=
  ⟨fun _ _ => le_total _ _⟩

instance relRankTrans (query : String) (now : ℚ) :
    IsTrans UnifiedMemoryEntry (relRank query now) :=
  ⟨fun _ _ _ h1 h2 => le_trans h2 h1⟩

/-- Three knowledge entries of distinct content stored at times 0, 1, 2
with importances 0.9, 0.5, 0.2 (ids 0, 1, 2). -/
def orderingScenario : UnifiedMemorySystem :=
  (((UnifiedMemorySystem.init.store_memory 0 "alpha" MemoryType.knowledge "k"
      (9/10) "" []).2.store_memory 1 "bravo" MemoryType.knowledge "k"
      (1/2) "" []).2.store_memory 2 "charlie" MemoryType.knowledge "k"
      (1/5) "" []).2

set_option maxHeartbeats 1000000 in
/-- C6 (amended): `retrieve_memories` returns its candidates sorted in
descending order of `calculate_relevance_score` (the Python sort key),
truncated to the first `max_results`; the sort is stable, so entries of
EQUAL relevance keep the candidate order coming from the index rather
than being re-ordered by importance or creation time.  In particular,
for three entries with importances 0.9, 0.5, 0.2 and no query text, a
retrieval of limit 3 returns them in descending importance order
(their relevance scores 1.0, 0.7, 0.4 are distinct). -/
theorem retrieve_sorted_amended :
    (∀ (st : UnifiedMemorySystem) (now : ℚ) (query : String)
        (mts : List MemoryType) (cats tags : List String) (maxr : Nat)
        (minImp : ℚ),
      List.Sorted (relRank query now)
        (st.retrieve_memories now query mts cats tags maxr minImp).1 ∧
      (st.retrieve_memories now query mts cats tags maxr minImp).1.length
        ≤ maxr) ∧
    (orderingScenario.retrieve_memories 2 "" [] [] [] 3 0).1.map
      (fun e => (e.id, e.importance)) = [(0, 9/10), (1, 1/2), (2, 1/5)] := by
  constructor
  · intro st now query mts cats tags maxr minImp
    constructor
    · unfold UnifiedMemorySystem.retrieve_memories
      exact List.Pairwise.sublist (List.take_sublist _ _)
        (List.sorted_insertionSort (relRank query now) _)
    · unfold UnifiedMemorySystem.retrieve_memories
      exact List.length_take_le _ _
  · with_unfolding_all decide

/-- The four scoring fields of an entry lie in the unit interval. -/
def scoreOK (m : UnifiedMemoryEntry) : Prop :=
  (0 ≤ m.importance ∧ m.importance ≤ 1) ∧
  (0 ≤ m.emotional_weight ∧ m.emotional_weight ≤ 1) ∧
  (0 ≤ m.plot_relevance ∧ m.plot_relevance ≤ 1) ∧
  (0 ≤ m.relationship_relevance ∧ m.relationship_relevance ≤ 1)

/-- Every entry of an association list satisfies `scoreOK`. -/
def allOK (l : List (Nat × UnifiedMemoryEntry)) : Prop :=
  ∀ p ∈ l, scoreOK p.2

/-- Every entry held anywhere in the system satisfies `scoreOK`. -/
def stateOK (st : UnifiedMemorySystem) : Prop :=
  allOK st.hot_memories ∧ allOK st.warm_memories ∧ allOK st.db

/-- A successful lookup returns a pair of the list. -/
theorem alookup_mem {l : List (Nat × UnifiedMemoryEntry)} {k : Nat}
    {e : UnifiedMemoryEntry} (h : alookup l k = some e) : (k, e) ∈ l := by
  unfold alookup at h
  cases hf : l.find? (fun p => p.1 = k) with
  | none => rw [hf] at h; exact Option.noConfusion h
  | some p =>
    rw [hf] at h
    obtain ⟨k', e'⟩ := p
    have hk : k' = k := by simpa using List.find?_some hf
    have he : e' = e := Option.some.inj h
    subst hk; subst he
    exact List.mem_of_find?_eq_some hf

/-- `upsert` keeps `allOK` when the inserted entry is in range. -/
theorem allOK_upsert {l : List (Nat × UnifiedMemoryEntry)} {k : Nat}
    {v : UnifiedMemoryEntry} (hl : allOK l) (hv : scoreOK v) :
    allOK (upsert l k v) := by
  intro p hp
  unfold upsert at hp
  split_ifs at hp
  · obtain ⟨q, hq, hpq⟩ := List.mem_map.mp hp
    by_cases hqk : q.1 = k
    · rw [if_pos hqk] at hpq
      rw [← hpq]
      exact hv
    · rw [if_neg hqk] at hpq
      rw [← hpq]
      exact hl q hq
  · rcases List.mem_append.mp hp with hin | hin
    · exact hl p hin
    · rw [List.mem_singleton.mp hin]
      exact hv

/-- Deleting keeps `allOK`. -/
theorem allOK_eraseKey {l : List (Nat × UnifiedMemoryEntry)} {k : Nat}
    (hl : allOK l) : allOK (eraseKey l k) :=
  fun p hp => hl p (List.mem_of_mem_filter hp)

/-- Entries resolved from any tier are in range when the state is. -/
theorem getMemoryById_scoreOK {st : UnifiedMemorySystem} {k : Nat}
    {e : UnifiedMemoryEntry} (hst : stateOK st)
    (h : st._get_memory_by_id k = some e) : scoreOK e := by
  unfold UnifiedMemorySystem._get_memory_by_id at h
  cases hh : alookup st.hot_memories k with
  | some m =>
    rw [hh] at h
    exact Option.some.inj h ▸ hst.1 _ (alookup_mem hh)
  | none =>
    rw [hh] at h
    cases hw : alookup st.warm_memories k with
    | some m =>
      rw [hw] at h
      exact Option.some.inj h ▸ hst.2.1 _ (alookup_mem hw)
    | none =>
      rw [hw] at h
      dsimp only at h
      split_ifs at h
      exact hst.2.2 _ (alookup_mem h)

/-- `writeBack` keeps the state in range. -/
theorem writeBack_stateOK {st : UnifiedMemorySystem} {k : Nat}
    {m : UnifiedMemoryEntry} (hst : stateOK st) (hm : scoreOK m) :
    stateOK (writeBack st k m) := by
  unfold writeBack
  split_ifs
  · exact ⟨allOK_upsert hst.1 hm, hst.2.1, hst.2.2⟩
  · exact ⟨hst.1, allOK_upsert hst.2.1 hm, hst.2.2⟩
  · exact hst

/-- `_persist_memory` keeps the state in range. -/
theorem persist_stateOK {st : UnifiedMemorySystem} {m : UnifiedMemoryEntry}
    (hst : stateOK st) (hm : scoreOK m) : stateOK (st._persist_memory m) := by
  unfold UnifiedMemorySystem._persist_memory
  split_ifs
  · exact hst
  · exact ⟨hst.1, hst.2.1, allOK_upsert hst.2.2 hm⟩

/-- Generic fold preservation for `stateOK`. -/
theorem foldl_stateOK (f : UnifiedMemorySystem → UnifiedMemoryEntry →
      UnifiedMemorySystem)
    (hf : ∀ s b, stateOK s → scoreOK b → stateOK (f s b)) :
    ∀ (l : List UnifiedMemoryEntry) (s : UnifiedMemorySystem), stateOK s →
      (∀ b ∈ l, scoreOK b) → stateOK (l.foldl f s)
  | [], _, hs, _ => hs
  | b :: l, s, hs, hl => by
    rw [List.foldl_cons]
    exact foldl_stateOK f hf l (f s b) (hf s b hs (hl b (List.mem_cons_self b l)))
      fun x hx => hl x (List.mem_cons_of_mem b hx)

/-- Hot-tier demotion keeps the state in range: the demoted entries all
come from the hot map and only have their tier changed. -/
theorem demote_hot_stateOK {st : UnifiedMemorySystem} (hst : stateOK st) :
    stateOK st._demote_cold_hot_memories := by
  unfold UnifiedMemorySystem._demote_cold_hot_memories
  refine foldl_stateOK _ ?_ _ _ hst ?_
  · intro s b hs hb
    exact persist_stateOK
      ⟨allOK_eraseKey hs.1, allOK_upsert hs.2.1 hb, hs.2.2⟩ hb
  · intro b hb
    have hb' : b ∈ st.hot_memories.map (fun p => p.2) := by
      have := List.take_subset _ _ hb
      rwa [List.mem_insertionSort] at this
    obtain ⟨p, hp, hpb⟩ := List.mem_map.mp hb'
    exact hpb ▸ hst.1 p hp

/-- Warm-tier demotion keeps the state in range. -/
theorem demote_warm_stateOK {st : UnifiedMemorySystem} (hst : stateOK st) :
    stateOK st._demote_cold_warm_memories := by
  unfold UnifiedMemorySystem._demote_cold_warm_memories
  refine foldl_stateOK _ ?_ _ _ hst ?_
  · intro s b hs hb
    exact persist_stateOK ⟨hs.1, allOK_eraseKey hs.2.1, hs.2.2⟩ hb
  · intro b hb
    have hb' : b ∈ st.warm_memories.map (fun p => p.2) := by
      have := List.take_subset _ _ hb
      rwa [List.mem_insertionSort] at this
    obtain ⟨p, hp, hpb⟩ := List.mem_map.mp hb'
    exact hpb ▸ hst.2.1 p hp

/-- Tier placement keeps the state in range. -/
theorem store_in_tier_stateOK {st : UnifiedMemorySystem}
    {m : UnifiedMemoryEntry} (hst : stateOK st) (hm : scoreOK m) :
    stateOK (st._store_in_tier m) := by
  simp only [UnifiedMemorySystem._store_in_tier]
  split_ifs
  · refine demote_hot_stateOK ?_
    exact ⟨allOK_upsert hst.1 hm, hst.2.1, hst.2.2⟩
  · exact ⟨allOK_upsert hst.1 hm, hst.2.1, hst.2.2⟩
  · refine demote_warm_stateOK ?_
    exact ⟨hst.1, allOK_upsert hst.2.1 hm, hst.2.2⟩
  · exact ⟨hst.1, allOK_upsert hst.2.1 hm, hst.2.2⟩
  · exact hst

/-- The shared entry object picked up after tier placement is in
range. -/
theorem currentEntry_scoreOK {st : UnifiedMemorySystem}
    {m : UnifiedMemoryEntry} (hst : stateOK st) (hm : scoreOK m) :
    scoreOK (currentEntry st m) := by
  unfold currentEntry
  cases hh : alookup st.hot_memories m.id with
  | some e => exact hst.1 _ (alookup_mem hh)
  | none =>
    cases hw : alookup st.warm_memories m.id with
    | some e => exact hst.2.1 _ (alookup_mem hw)
    | none => exact hm

/-- The duplicate-merge loop keeps the state in range: the merged
entry's importance is raised at most to the incoming (in-range)
importance, every other scoring field is untouched. -/
theorem dup_loop_stateOK {nm : UnifiedMemoryEntry} (now : ℚ)
    (cw : List String) (hnm : 0 ≤ nm.importance ∧ nm.importance ≤ 1) :
    ∀ (ids : List Nat) (st : UnifiedMemorySystem), stateOK st →
      ∀ st', st._check_for_duplicates_loop now nm cw ids = some st' →
        stateOK st'
  | [], _, _, _, heq => by
    simp [UnifiedMemorySystem._check_for_duplicates_loop] at heq
  | cid :: rest, st, hst, st', heq => by
    unfold UnifiedMemorySystem._check_for_duplicates_loop at heq
    cases hg : st._get_memory_by_id cid with
    | none =>
      rw [hg] at heq
      dsimp only at heq
      exact dup_loop_stateOK now cw hnm rest st hst st' heq
    | some ex =>
      have hex : scoreOK ex := getMemoryById_scoreOK hst hg
      rw [hg] at heq
      dsimp only at heq
      split_ifs at heq <;>
        first
          | exact dup_loop_stateOK now cw hnm rest st hst st' heq
          | (rw [← Option.some.inj heq]
             exact persist_stateOK
               (writeBack_stateOK hst ⟨hnm, hex.2.1, hex.2.2.1, hex.2.2.2⟩)
               ⟨hnm, hex.2.1, hex.2.2.1, hex.2.2.2⟩)
          | (rw [← Option.some.inj heq]
             exact persist_stateOK
               (writeBack_stateOK hst ⟨hex.1, hex.2.1, hex.2.2.1, hex.2.2.2⟩)
               ⟨hex.1, hex.2.1, hex.2.2.1, hex.2.2.2⟩)

/-- The periodic cleanup keeps the state in range: deletion only
shrinks the table and re-tiering changes only the tier field. -/
theorem cleanup_stateOK {st : UnifiedMemorySystem} (hst : stateOK st)
    (now : ℚ) : stateOK (st._perform_cleanup now) := by
  unfold UnifiedMemorySystem._perform_cleanup
  split_ifs
  · exact hst
  · refine ⟨hst.1, hst.2.1, ?_⟩
    intro p hp
    obtain ⟨q, hq, hqp⟩ := List.mem_map.mp hp
    have hq' : q ∈ st.db := List.mem_of_mem_filter hq
    have := hst.2.2 q hq'
    split_ifs at hqp <;> rw [← hqp] <;> exact this

/-- The retrieval loop keeps the state in range: access bookkeeping
touches no scoring field. -/
theorem resolveCandidates_stateOK (now minImp : ℚ) :
    ∀ (ids : List Nat) (st : UnifiedMemorySystem), stateOK st →
      stateOK (st.resolveCandidates now minImp ids).2
  | [], _, h => h
  | cid :: rest, st, h => by
    unfold UnifiedMemorySystem.resolveCandidates
    cases hg : st._get_memory_by_id cid with
    | none =>
      dsimp only
      exact resolveCandidates_stateOK now minImp rest st h
    | some m =>
      have hm : scoreOK m := getMemoryById_scoreOK h hg
      dsimp only
      split_ifs
      · dsimp only
        exact resolveCandidates_stateOK now minImp rest _
          (writeBack_stateOK h ⟨hm.1, hm.2.1, hm.2.2.1, hm.2.2.2⟩)
      · exact resolveCandidates_stateOK now minImp rest st h

/-- `retrieve_memories` keeps the state in range. -/
theorem retrieve_memories_stateOK (st : UnifiedMemorySystem) (hst : stateOK st)
    (now : ℚ) (query : String) (mts : List MemoryType) (cats tags : List String)
    (maxr : Nat) (minImp : ℚ) :
    stateOK (st.retrieve_memories now query mts cats tags maxr minImp).2 := by
  unfold UnifiedMemorySystem.retrieve_memories
  exact resolveCandidates_stateOK now minImp _ st hst

/-- `store_memory` keeps the state in range when the caller-supplied
importance is in range. -/
theorem store_memory_stateOK (st : UnifiedMemorySystem) (hst : stateOK st)
    (now : ℚ) (content : String) (mt : MemoryType) (cat : String) {imp : ℚ}
    (himp : 0 ≤ imp ∧ imp ≤ 1) (ctx : String) (tg : List String) :
    stateOK (st.store_memory now content mt cat imp ctx tg).2 := by
  have hM : scoreOK
      { id := st.nextId, content := content, memory_type := mt,
        category := cat, importance := imp, timestamp := now, context := ctx,
        tags := tg } :=
    ⟨himp, by norm_num, by norm_num, by norm_num⟩
  simp only [UnifiedMemorySystem.store_memory,
    UnifiedMemorySystem._check_for_duplicates]
  cases hd : UnifiedMemorySystem._check_for_duplicates_loop st now
      { id := st.nextId, content := content, memory_type := mt,
        category := cat, importance := imp, timestamp := now,
        context := ctx, tags := tg }
      (wordSet content)
      (st.index.search "" [mt] [cat] [] 20) with
  | some st' =>
    simp only [hd]
    exact dup_loop_stateOK now (wordSet content) himp _ st hst st' hd
  | none =>
    simp only [hd]
    generalize hS : UnifiedMemorySystem._store_in_tier
      { st with nextId := st.nextId + 1 }
      { id := st.nextId, content := content, memory_type := mt,
        category := cat, importance := imp, timestamp := now,
        context := ctx, tags := tg } = s1
    have h1 : stateOK s1 := by
      rw [← hS]
      exact @store_in_tier_stateOK { st with nextId := st.nextId + 1 }
        { id := st.nextId, content := content, memory_type := mt,
          category := cat, importance := imp, timestamp := now,
          context := ctx, tags := tg } hst hM
    generalize hM1 : currentEntry s1
      { id := st.nextId, content := content, memory_type := mt,
        category := cat, importance := imp, timestamp := now,
        context := ctx, tags := tg } = m1
    have hm1 : scoreOK m1 := by
      rw [← hM1]
      exact currentEntry_scoreOK h1 hM
    split_ifs
    · refine cleanup_stateOK ?_ now
      exact @persist_stateOK
        { s1 with index := s1.index.add_entry st.nextId m1 } m1
        ⟨h1.1, h1.2.1, h1.2.2⟩ hm1
    · exact @persist_stateOK
        { s1 with index := s1.index.add_entry st.nextId m1 } m1
        ⟨h1.1, h1.2.1, h1.2.2⟩ hm1

/-- A fresh system is in range. -/
theorem stateOK_init : stateOK UnifiedMemorySystem.init :=
  ⟨fun p hp => absurd hp (List.not_mem_nil p),
   fun p hp => absurd hp (List.not_mem_nil p),
   fun p hp => absurd hp (List.not_mem_nil p)⟩

/-- C1 (amended): provided the state is in range and the
caller-supplied importance lies in [0, 1], every entry held anywhere in
the system (hot map, warm map, database) keeps `importance`,
`emotionalWeight`, `plotRelevance` and `relationshipRelevance` inside
[0.0, 1.0] after `store_memory` (including its duplicate-merge and
periodic-cleanup paths), after `retrieve_memories`, and after the
maintenance sweep.  No operation clamps anything: the bound holds only
because merges take a maximum of in-range values and the other three
fields are created at 0.0 and never modified, which is why an
out-of-range caller-supplied importance (see the counterexample) is
stored verbatim. -/
theorem scoring_fields_unit_interval (st : UnifiedMemorySystem)
    (hst : stateOK st) (now : ℚ) (content : String) (mt : MemoryType)
    (cat ctx : String) (imp : ℚ) (tg : List String) (query : String)
    (mts : List MemoryType) (cats tags2 : List String) (maxr : Nat)
    (minImp : ℚ) :
    ((0 ≤ imp ∧ imp ≤ 1) →
      stateOK (st.store_memory now content mt cat imp ctx tg).2) ∧
    stateOK (st.retrieve_memories now query mts cats tags2 maxr minImp).2 ∧
    stateOK (st._perform_cleanup now) :=
  ⟨fun h => store_memory_stateOK st hst now content mt cat h ctx tg,
   retrieve_memories_stateOK st hst now query mts cats tags2 maxr minImp,
   cleanup_stateOK hst now⟩

/-- C1 witness: the three operations applied to a fresh system with an
in-range importance. -/
theorem scoring_fields_unit_interval_witness :
    stateOK (UnifiedMemorySystem.init.store_memory 0 "x" MemoryType.knowledge
      "c" (1/2) "" []).2 ∧
    stateOK (UnifiedMemorySystem.init.retrieve_memories 0 "" [] [] [] 5 0).2 ∧
    stateOK (UnifiedMemorySystem.init._perform_cleanup 0) :=
  ⟨(scoring_fields_unit_interval UnifiedMemorySystem.init stateOK_init 0 "x"
      MemoryType.knowledge "c" "" (1/2) [] "" [] [] [] 5 0).1 (by norm_num),
   (scoring_fields_unit_interval UnifiedMemorySystem.init stateOK_init 0 "x"
      MemoryType.knowledge "c" "" (1/2) [] "" [] [] [] 5 0).2.1,
   (scoring_fields_unit_interval UnifiedMemorySystem.init stateOK_init 0 "x"
      MemoryType.knowledge "c" "" (1/2) [] "" [] [] [] 5 0).2.2⟩
